import Mathlib

/-
Verification of the processing-service of the cloud-native file-operations
platform against its natural-language specification.

Each section shallowly embeds one component of the Python source
(services/processing-service) into Lean: pure functions become Lean
functions, stateful code becomes explicit state passing, Python floats are
modelled as rationals, Python exceptions as Except, and environmental
inputs (clock readings, random draws, processing outcomes) become explicit
parameters.  The claim theorems at the end of the file are stated over
these definitions.
-/

namespace FileOps

/-! ## Job lifecycle (models.py, services/job_manager.py)

The status effect of the job-manager operations on a single job.  A job is
created in `pending` (models.py, `Job.status` default).  `cancel_job`
refuses to touch jobs in a terminal state (job_manager.py lines 114-118);
`process_job_async` returns without a write unless the job is `pending`
(lines 151-156) and then writes `running` followed by a terminal status;
`_fail_job` writes `failed` with no check of the current status
(lines 240-247).  Environmental outcomes of `process_job_async` (missing
file, missing pipeline, processing result, an exception raised after the
result status was written) are an explicit parameter. -/

inductive JobStatus where
  | pending
  | running
  | completed
  | failed
  | cancelled
  deriving DecidableEq, Repr

/-- Terminal statuses, as listed in `cancel_job` (job_manager.py line 114). -/
def JobStatus.isTerminal : JobStatus → Bool
  | .completed => true
  | .failed => true
  | .cancelled => true
  | _ => false

/-- Environmental outcome of one `process_job_async` call: which branch the
processing takes once the job has been moved to `running`. -/
inductive ProcessOutcome where
  | fileMissing      -- `_get_file_path` returned nothing: `_fail_job`
  | pipelineMissing  -- no pipeline resolved: `_fail_job`
  | procSuccess      -- `process_file` succeeded: status := completed
  | procFailure      -- `process_file` reported failure: status := failed
  | lateException    -- exception after the completed write: `_fail_job`
  deriving DecidableEq, Repr

/-- Status a job carries when `JobManager.create_job` builds it
(job_manager.py lines 42-67): the `Job` constructor is called without a
`status` argument, so the field takes its default
`JobStatus.PENDING` (models.py line 93), and `create_job` never writes the
status afterwards. -/
def createJobStatus : JobStatus := .pending

/-- Status effect of `JobManager.cancel_job` (job_manager.py lines 107-140):
jobs already in a terminal state are left unchanged, every other job is set
to `cancelled`. -/
def cancelJobStatus (s : JobStatus) : JobStatus :=
  if s.isTerminal then s else .cancelled

/-- Status effect of `JobManager._fail_job` (job_manager.py lines 240-266):
the status is set to `failed` with no guard on the current status. -/
def failJobStatus (_ : JobStatus) : JobStatus := .failed

/-- Sequence of status writes performed by one `JobManager.process_job_async`
call (job_manager.py lines 142-228).  If the job is not `pending` the call
returns without writing (lines 151-153); otherwise it writes `running`
(line 156) and then, depending on the outcome, a terminal status — with
`lateException` the `completed` write (line 191) is followed by the
`failed` write of the exception handler's `_fail_job` (line 222). -/
def processJobAsyncTrace (s : JobStatus) (o : ProcessOutcome) : List JobStatus :=
  if s = .pending then
    .running :: (match o with
      | .fileMissing => [.failed]
      | .pipelineMissing => [.failed]
      | .procSuccess => [.completed]
      | .procFailure => [.failed]
      | .lateException => [.completed, .failed])
  else []

/-- One job-manager operation acting on an existing job's status. -/
inductive JobOp where
  | cancel
  | process (o : ProcessOutcome)
  | fail
  deriving DecidableEq, Repr

/-- Status after applying one operation (the last write of its trace, or the
unchanged status when the operation writes nothing). -/
def applyJobOp (s : JobStatus) : JobOp → JobStatus
  | .cancel => cancelJobStatus s
  | .process o => (processJobAsyncTrace s o).getLast?.getD s
  | .fail => failJobStatus s

/-- Status after a sequence of job-manager operations. -/
def runJobOps (s : JobStatus) (ops : List JobOp) : JobStatus :=
  ops.foldl applyJobOp s

/-! ## Job request validation (models.py lines 59-72)

`JobRequest` is a pydantic (v1) model with fields declared in the order
`file_id`, `pipeline_id`, `custom_pipeline`, ....  Its validator
`validate_pipeline` is attached to `pipeline_id` with `always=True` and
reads `values['custom_pipeline']`.  Pydantic v1 validates fields in
declaration order and `values` holds only the already-validated fields, so
when the validator runs, `custom_pipeline` has not been validated yet and
is never present in `values`.  The embedding passes this fact explicitly:
`jobRequestValidates` invokes the validator with `valuesHasCustom = false`,
exactly as the pydantic runtime does. -/

/-- Python truthiness of an optional string field: `None` and the empty
string are falsy. -/
def pyTruthyStr : Option String → Bool
  | none => false
  | some s => !(s = "")

/-- Body of `JobRequest.validate_pipeline` (models.py lines 67-72); `v` is
the `pipeline_id` value, `valuesHasCustom` and `customTruthy` describe
`values.get('custom_pipeline')` at the moment the validator runs.  The
result is `none` when the validator raises `ValueError`. -/
def validatePipeline (v : Option String) (valuesHasCustom customTruthy : Bool) :
    Option (Option String) :=
  if !valuesHasCustom || !customTruthy then
    if !pyTruthyStr v then none else some v
  else some v

/-- Whether a `JobRequest` with the given `pipeline_id` and presence of
`custom_pipeline` passes model validation.  Because `custom_pipeline` is
declared after `pipeline_id`, the validator always runs with
`valuesHasCustom = false`, whatever `hasCustom` is. -/
def jobRequestValidates (pipeline_id : Option String) (_hasCustom : Bool) : Bool :=
  (validatePipeline pipeline_id false false).isSome

/-! ## Retry handler (services/retry_handler.py)

Delays and the retry decision.  Python floats are modelled as rationals and
the `random.uniform(-jitter_amount, jitter_amount)` draw becomes an
explicit parameter `u` ranging over `[-1, 1]`, with the drawn jitter equal
to `jitter_amount * u`. -/

inductive RetryStrategy where
  | exponentialBackoff
  | linearBackoff
  | fixedInterval
  | immediate
  deriving DecidableEq, Repr

inductive FailureType where
  | transient
  | permanent
  | rateLimit
  | timeout
  | unknown
  deriving DecidableEq, Repr

structure RetryConfig where
  max_attempts : ℤ
  strategy : RetryStrategy
  base_delay_seconds : ℚ
  max_delay_seconds : ℚ
  backoff_multiplier : ℚ
  jitter : Bool
  retry_on_exceptions : List String
  deriving DecidableEq, Repr

/-- Default `RetryConfig` (retry_handler.py lines 32-48). -/
def defaultRetryConfig : RetryConfig :=
  { max_attempts := 3
    strategy := .exponentialBackoff
    base_delay_seconds := 1
    max_delay_seconds := 300
    backoff_multiplier := 2
    jitter := true
    retry_on_exceptions :=
      ["ConnectionError", "TimeoutError", "TemporaryFailure",
       "ResourceExhausted", "RateLimitError"] }

/-- Lowercasing of a string (Python `str.lower`), character by character. -/
def lowerString (s : String) : String := ⟨s.data.map Char.toLower⟩

/-- Substring test on character lists. -/
def listContainsSub (s pat : List Char) : Bool :=
  (List.range (s.length + 1)).any fun i => (s.drop i).take pat.length = pat

/-- Substring test mirroring Python's `pattern in s`. -/
def strContains (s pat : String) : Bool :=
  listContainsSub s.data pat.data

/-- Failure-classification pattern table of `_load_failure_patterns`
(retry_handler.py lines 74-100) in Python dict iteration order: the literal
lists `"timeout"` twice, so the second value (`TIMEOUT`) overwrites the
first (`TRANSIENT`) while the key keeps its original insertion position. -/
def failurePatterns : List (String × FailureType) :=
  [("connection", .transient),
   ("timeout", .timeout),
   ("network", .transient),
   ("temporary", .transient),
   ("resource", .transient),
   ("invalid", .permanent),
   ("not found", .permanent),
   ("permission", .permanent),
   ("authentication", .permanent),
   ("format", .permanent),
   ("corrupt", .permanent),
   ("rate limit", .rateLimit),
   ("too many", .rateLimit),
   ("quota", .rateLimit),
   ("deadline", .timeout)]

/-- An error value as `_classify_failure` observes it: its message, its
type name, and the results of the three `isinstance` fallback tests. -/
structure PyError where
  message : String
  typeName : String
  isConnOrOSError : Bool
  isValueOrTypeError : Bool
  isTimeoutError : Bool
  deriving DecidableEq, Repr

/-- Body of `RetryHandler._classify_failure` (retry_handler.py lines
155-178): the first matching pattern in `failurePatterns` wins (matched
against the lowercased message and the lowercased type name), with
`isinstance` fallbacks when no pattern matches. -/
def classifyFailure (e : PyError) : FailureType :=
  let msg := lowerString e.message
  let ty := lowerString e.typeName
  match failurePatterns.find? (fun p => strContains msg p.1 || strContains ty p.1) with
  | some p => p.2
  | none =>
    if e.isConnOrOSError then .transient
    else if e.isValueOrTypeError then .permanent
    else if e.isTimeoutError then .timeout
    else .unknown

/-- Body of `RetryHandler._calculate_delay` (retry_handler.py lines
180-227).  `u ∈ [-1, 1]` stands for the scaled `random.uniform` draw.  The
one arithmetic exception in the body — `0.0 ** negative` raising
`ZeroDivisionError` when the multiplier is zero and `attempt_count` is
zero — is caught by the handler at lines 225-227, which returns
`base_delay_seconds`; that branch is spelled out first. -/
def calculateDelay (attempt_count : ℕ) (config : RetryConfig)
    (failure_type : FailureType) (u : ℚ) : ℚ :=
  if config.strategy = .immediate then 0
  else if config.strategy = .exponentialBackoff ∧ config.backoff_multiplier = 0 ∧
      attempt_count = 0 then
    config.base_delay_seconds
  else
    let delay : ℚ :=
      match config.strategy with
      | .fixedInterval => config.base_delay_seconds
      | .linearBackoff => config.base_delay_seconds * attempt_count
      | .exponentialBackoff =>
          config.base_delay_seconds * config.backoff_multiplier ^ ((attempt_count : ℤ) - 1)
      | .immediate => config.base_delay_seconds
    let delay : ℚ :=
      if failure_type = .rateLimit then delay * 2
      else if failure_type = .timeout then delay * (3 / 2)
      else delay
    let delay : ℚ := min delay config.max_delay_seconds
    let delay : ℚ := if config.jitter then delay + delay * (1 / 10) * u else delay
    max delay (1 / 10)

/-- Body of `RetryHandler.should_retry` (retry_handler.py lines 102-153):
max-attempts guard, permanent-failure guard, retryable-exception guard,
then the computed delay.  `current_attempts` is the length of the job's
retry history; `u` is the jitter draw forwarded to `calculateDelay`. -/
def shouldRetry (current_attempts : ℕ) (e : PyError) (config : RetryConfig)
    (u : ℚ) : Bool × ℚ :=
  if (current_attempts : ℤ) ≥ config.max_attempts then (false, 0)
  else
    let failure_type := classifyFailure e
    if failure_type = .permanent then (false, 0)
    else if !(config.retry_on_exceptions.contains e.typeName) then (false, 0)
    else (true, calculateDelay current_attempts config failure_type u)

/-! ## Dead letter queue (services/dead_letter_queue.py) -/

inductive DeadLetterReason where
  | maxRetriesExceeded
  | permanentFailure
  | timeout
  | invalidInput
  | resourceExhausted
  | configurationError
  | unknown
  deriving DecidableEq, Repr

inductive DeadLetterAction where
  | retryLater
  | manualReview
  | archive
  | delete
  | notify
  deriving DecidableEq, Repr

/-- Body of `DeadLetterQueue._classify_failure_reason` (dead_letter_queue.py
lines 172-196).  The `retry_count >= 3` guard comes first; the remaining
checks are substring tests on the lowercased error message (the lowercased
type name is computed by the source but not consulted). -/
def classifyFailureReason (e : PyError) (retry_count : ℤ) : DeadLetterReason :=
  let m := lowerString e.message
  if retry_count ≥ 3 then .maxRetriesExceeded
  else if strContains m "invalid" || strContains m "not found" then .invalidInput
  else if strContains m "timeout" || strContains m "deadline" then .timeout
  else if strContains m "resource" || strContains m "memory" || strContains m "disk" then
    .resourceExhausted
  else if strContains m "config" || strContains m "setting" then .configurationError
  else if strContains m "permanent" || strContains m "fatal" then .permanentFailure
  else .unknown

/-- Body of `DeadLetterQueue._recommend_action` (dead_letter_queue.py lines
198-224). -/
def recommendAction (failure_reason : DeadLetterReason) : DeadLetterAction :=
  match failure_reason with
  | .maxRetriesExceeded => .manualReview
  | .timeout => .retryLater
  | .resourceExhausted => .retryLater
  | .invalidInput => .manualReview
  | .configurationError => .manualReview
  | .permanentFailure => .archive
  | .unknown => .manualReview

/-- The deterministic fields of the `DeadLetterEntry` built by
`DeadLetterQueue.add_job` (dead_letter_queue.py lines 130-149); book-keeping
fields that merely copy the job or read the clock are omitted. -/
structure DeadLetterEntryCore where
  job_id : String
  failure_reason : DeadLetterReason
  error_message : String
  retry_count : ℤ
  recommended_action : DeadLetterAction
  deriving DecidableEq, Repr

/-- Entry construction performed by `DeadLetterQueue.add_job`
(dead_letter_queue.py lines 104-170): the failure reason is
`classifyFailureReason`, the recommended action follows from it. -/
def addJobEntry (job_id : String) (e : PyError) (retry_count : ℤ) :
    DeadLetterEntryCore :=
  let failure_reason := classifyFailureReason e retry_count
  { job_id := job_id
    failure_reason := failure_reason
    error_message := e.message
    retry_count := retry_count
    recommended_action := recommendAction failure_reason }

/-! ## Worker scaler (services/worker_scaler.py)

The scaling decision function.  The short-circuit of Python's `or` matters:
`current_load / total_capacity` is evaluated only when the first two
disjuncts are false, and raises `ZeroDivisionError` (modelled as
`Except.error`) when `total_capacity` is zero. -/

/-- The fields of `WorkerScaler` that `_determine_scaling_action` reads:
worker counts, thresholds, and the number of idle workers derived from
`worker_metrics` (worker_scaler.py line 176). -/
structure ScalerState where
  current_workers : ℤ
  min_workers : ℤ
  max_workers : ℤ
  scale_up_threshold : ℚ
  scale_down_threshold : ℚ
  idle_worker_count : ℤ
  deriving DecidableEq, Repr

/-- The scale-up condition of worker_scaler.py lines 152-154 with Python's
left-to-right short-circuit evaluation; division by a zero capacity raises. -/
def scaleUpCondition (st : ScalerState) (load_score : ℚ) (queue_size : ℤ)
    (current_load total_capacity : ℚ) : Except Unit Bool :=
  if load_score > st.scale_up_threshold then .ok true
  else if queue_size > 10 then .ok true
  else if total_capacity = 0 then .error ()
  else .ok (current_load / total_capacity > 8 / 10)

/-- Body of `WorkerScaler._determine_scaling_action` (worker_scaler.py lines
142-184).  When the scale-up condition holds but the worker count is
already at `max_workers`, and when too few workers are idle for a
scale-down, control falls through to the final `no_action` return. -/
def determineScalingAction (st : ScalerState) (load_score : ℚ) (queue_size : ℤ)
    (current_load total_capacity : ℚ) : Except Unit (String × ℤ × String) :=
  match scaleUpCondition st load_score queue_size current_load total_capacity with
  | .error u => .error u
  | .ok upCond =>
    if upCond then
      if st.current_workers < st.max_workers then
        if queue_size > 50 then
          .ok ("scale_up", min (st.current_workers + 5) st.max_workers,
               "High queue load - adding 5 workers")
        else if queue_size > 20 then
          .ok ("scale_up", min (st.current_workers + 3) st.max_workers,
               "Medium queue load - adding 3 workers")
        else
          .ok ("scale_up", min (st.current_workers + 1) st.max_workers,
               "Moderate load - adding 1 worker")
      else .ok ("no_action", st.current_workers, "Load within acceptable range")
    else if load_score < st.scale_down_threshold ∧ queue_size = 0 ∧
        st.current_workers > st.min_workers then
      if st.idle_worker_count > 2 then
        .ok ("scale_down", max (st.current_workers - 1) st.min_workers,
             "Low load - removing 1 idle worker")
      else .ok ("no_action", st.current_workers, "Load within acceptable range")
    else .ok ("no_action", st.current_workers, "Load within acceptable range")

/-! ## Batch processor (services/batch_processor.py)

Progress book-keeping.  `pending_files` is computed by integer subtraction
and may in principle be negative, so progress counters are integers. -/

structure BatchJobProgress where
  total_files : ℤ
  completed_files : ℤ
  failed_files : ℤ
  running_files : ℤ
  pending_files : ℤ
  progress_percentage : ℚ
  deriving DecidableEq, Repr

/-- Sum of the four per-state file counters of a progress record. -/
def BatchJobProgress.counterSum (p : BatchJobProgress) : ℤ :=
  p.completed_files + p.failed_files + p.running_files + p.pending_files

/-- Initial progress written by `process_batch_job_async`
(batch_processor.py lines 74-82). -/
def initBatchProgress (total_files : ℕ) : BatchJobProgress :=
  { total_files := total_files
    completed_files := 0
    failed_files := 0
    running_files := 0
    pending_files := total_files
    progress_percentage := 0 }

/-- Number of jobs in the result list with the given status. -/
def countStatus (jobs : List JobStatus) (s : JobStatus) : ℕ :=
  (jobs.filter (· = s)).length

/-- Body of `BatchProcessor._update_batch_progress` (batch_processor.py
lines 178-206): counters are recomputed from the per-file job results,
`pending` is the remainder, and the percentage is
`(completed / len(file_ids)) * 100` guarded by the truthiness of
`file_ids`. -/
def updateBatchProgress (file_count : ℕ) (jobs : List JobStatus) : BatchJobProgress :=
  let completed := countStatus jobs .completed
  let failed := countStatus jobs .failed
  let running := countStatus jobs .running
  { total_files := file_count
    completed_files := completed
    failed_files := failed
    running_files := running
    pending_files := (file_count : ℤ) - completed - failed - running
    progress_percentage :=
      if file_count = 0 then 0 else ((completed : ℚ) / file_count) * 100 }

/-- Final progress written by `BatchProcessor._complete_batch_job`
(batch_processor.py lines 238-245): counters from the successful and failed
file lists, zero running and pending, and a hard-coded percentage of
`100.0`. -/
def completeBatchProgress (file_ids successful_jobs failed_jobs : List String) :
    BatchJobProgress :=
  { total_files := file_ids.length
    completed_files := successful_jobs.length
    failed_files := failed_jobs.length
    running_files := 0
    pending_files := 0
    progress_percentage := 100 }

/-! ## Resource allocator (services/resource_allocator.py)

Workers, the job queue and the allocation table.  Python dicts keyed by id
become association lists kept duplicate-free by replace-or-append updates;
the job queue, a `heapq` list in the source, is kept in push order here —
heap placement only affects which entry a linear scan by `job_id` finds
first when the same id is queued twice, never the resource accounting that
claims C2 and C10 are about.  The priority score, which the source derives
from the job's priority, age and metadata (`_calculate_priority_score`), is
a parameter of the queue operation. -/

structure ResourceRequirement where
  cpu_cores : ℚ
  memory_mb : ℚ
  disk_mb : ℚ
  network_mbps : ℚ
  estimated_duration_seconds : ℤ
  deriving DecidableEq, Repr

structure WorkerResource where
  worker_id : String
  available_cpu : ℚ
  available_memory : ℚ
  available_disk : ℚ
  available_network : ℚ
  max_cpu : ℚ
  max_memory : ℚ
  max_disk : ℚ
  max_network : ℚ
  deriving DecidableEq, Repr

structure ResourceAllocation where
  job_id : String
  worker_id : String
  allocated_cpu : ℚ
  allocated_memory : ℚ
  allocated_disk : ℚ
  estimated_duration : ℤ
  priority_score : ℤ
  deriving DecidableEq, Repr

structure AllocQueueEntry where
  priority_score : ℤ
  job_id : String
  processing_types : List String
  deriving DecidableEq, Repr

structure AllocatorState where
  job_queue : List AllocQueueEntry
  worker_resources : List WorkerResource
  job_allocations : List ResourceAllocation
  deriving DecidableEq, Repr

/-- Fresh allocator state (`ResourceAllocator.__init__`). -/
def initAllocatorState : AllocatorState :=
  { job_queue := [], worker_resources := [], job_allocations := [] }

/-- Resource requirement table `processing_requirements`
(resource_allocator.py lines 59-68). -/
def processingRequirements (t : String) : Option ResourceRequirement :=
  if t = "image_resize" then some ⟨1, 512, 100, 10, 30⟩
  else if t = "image_format_convert" then some ⟨3 / 2, 1024, 200, 10, 45⟩
  else if t = "document_text_extract" then some ⟨1 / 2, 256, 50, 5, 60⟩
  else if t = "document_pdf_generate" then some ⟨1, 512, 100, 5, 90⟩
  else if t = "video_thumbnail" then some ⟨2, 2048, 500, 50, 120⟩
  else if t = "video_compress" then some ⟨4, 4096, 1000, 100, 600⟩
  else if t = "content_analysis" then some ⟨1, 1024, 100, 10, 180⟩
  else if t = "custom" then some ⟨2, 2048, 500, 20, 300⟩
  else none

/-- Body of `_calculate_total_requirements` (resource_allocator.py lines
233-261): componentwise sum over the known processing types, maximum of
the durations. -/
def calculateTotalRequirements (processing_types : List String) : ResourceRequirement :=
  processing_types.foldl
    (fun acc t =>
      match processingRequirements t with
      | some req =>
          { cpu_cores := acc.cpu_cores + req.cpu_cores
            memory_mb := acc.memory_mb + req.memory_mb
            disk_mb := acc.disk_mb + req.disk_mb
            network_mbps := acc.network_mbps + req.network_mbps
            estimated_duration_seconds :=
              max acc.estimated_duration_seconds req.estimated_duration_seconds }
      | none => acc)
    ⟨0, 0, 0, 0, 0⟩

/-- Admission check of `_find_best_worker` (resource_allocator.py lines
270-273): the worker must have every required resource available. -/
def workerSuitable (w : WorkerResource) (req : ResourceRequirement) : Bool :=
  req.cpu_cores ≤ w.available_cpu ∧ req.memory_mb ≤ w.available_memory ∧
    req.disk_mb ≤ w.available_disk ∧ req.network_mbps ≤ w.available_network

/-- Fit score of `_find_best_worker` (resource_allocator.py lines 276-280);
lower is better.  Lean's total division returns 0 where Python would raise
`ZeroDivisionError` on a zero maximum; in that case the source's exception
handler would return no worker and leave the state unchanged, which
preserves every property proved below just as the Lean branch does. -/
def workerFitScore (w : WorkerResource) (req : ResourceRequirement) : ℚ :=
  (w.available_cpu - req.cpu_cores) / w.max_cpu +
    (w.available_memory - req.memory_mb) / w.max_memory

/-- Leftmost minimum of the fit score over a non-empty candidate list: the
source sorts the suitable workers by fit score with Python's stable sort
and takes the first (resource_allocator.py lines 287-288), which is the
earliest worker attaining the minimal score. -/
def pickBestWorker (req : ResourceRequirement) (h : WorkerResource)
    (t : List WorkerResource) : WorkerResource :=
  t.foldl (fun best w => if workerFitScore w req < workerFitScore best req then w else best) h

/-- Body of `_find_best_worker` (resource_allocator.py lines 263-292). -/
def findBestWorker (workers : List WorkerResource) (req : ResourceRequirement) :
    Option WorkerResource :=
  match workers.filter (fun w => workerSuitable w req) with
  | [] => none
  | h :: t => some (pickBestWorker req h t)

/-- Replace-or-append update of the worker dict `worker_resources`. -/
def setWorker (ws : List WorkerResource) (w : WorkerResource) : List WorkerResource :=
  match ws with
  | [] => [w]
  | x :: xs => if x.worker_id = w.worker_id then w :: xs else x :: setWorker xs w

/-- Pointwise update of the worker with the given id, mirroring the in-place
mutation of the dict entry; ids not present lead to no change. -/
def updateWorker (ws : List WorkerResource) (wid : String)
    (f : WorkerResource → WorkerResource) : List WorkerResource :=
  ws.map fun w => if w.worker_id = wid then f w else w

/-- Replace-or-append update of the allocation dict `job_allocations`. -/
def setAllocation (as0 : List ResourceAllocation) (a : ResourceAllocation) :
    List ResourceAllocation :=
  match as0 with
  | [] => [a]
  | x :: xs => if x.job_id = a.job_id then a :: xs else x :: setAllocation xs a

/-- Body of `register_worker` (resource_allocator.py lines 72-87):
`resources.get` with defaults 2.0 / 4096 / 10000 / 100, and available
initialised to the maximum. -/
def registerWorker (st : AllocatorState) (worker_id : String)
    (cpu memory disk network : Option ℚ) : AllocatorState :=
  let w : WorkerResource :=
    { worker_id := worker_id
      available_cpu := cpu.getD 2
      available_memory := memory.getD 4096
      available_disk := disk.getD 10000
      available_network := network.getD 100
      max_cpu := cpu.getD 2
      max_memory := memory.getD 4096
      max_disk := disk.getD 10000
      max_network := network.getD 100 }
  { st with worker_resources := setWorker st.worker_resources w }

/-- State effect of `queue_job` (resource_allocator.py lines 89-111): the
entry joins the queue; `priority_score` stands for the value of
`_calculate_priority_score`, which depends on the wall clock. -/
def queueJob (st : AllocatorState) (job_id : String) (priority_score : ℤ)
    (processing_types : List String) : AllocatorState :=
  { st with job_queue := st.job_queue ++ [⟨priority_score, job_id, processing_types⟩] }

/-- Resource subtraction of `allocate_resources` (resource_allocator.py
lines 148-153): note that `available_network` is reduced by the network
requirement even though the stored allocation keeps no network field. -/
def allocateFromWorker (req : ResourceRequirement) (w : WorkerResource) : WorkerResource :=
  { w with
    available_cpu := w.available_cpu - req.cpu_cores
    available_memory := w.available_memory - req.memory_mb
    available_disk := w.available_disk - req.disk_mb
    available_network := w.available_network - req.network_mbps }

/-- Body of `allocate_resources` (resource_allocator.py lines 113-168): find
the queued entry by job id, compute the total requirement, pick the best
worker, subtract the requirement from it, record the allocation, and drop
the job's entries from the queue.  A missing entry or a missing worker
leaves the state unchanged (the source returns `None`). -/
def allocateResources (st : AllocatorState) (job_id : String) : AllocatorState :=
  match st.job_queue.find? (fun e => e.job_id = job_id) with
  | none => st
  | some entry =>
    let req := calculateTotalRequirements entry.processing_types
    match findBestWorker st.worker_resources req with
    | none => st
    | some best =>
      let alloc : ResourceAllocation :=
        { job_id := job_id
          worker_id := best.worker_id
          allocated_cpu := req.cpu_cores
          allocated_memory := req.memory_mb
          allocated_disk := req.disk_mb
          estimated_duration := req.estimated_duration_seconds
          priority_score := |entry.priority_score| }
      { job_queue := st.job_queue.filter (fun e => !(e.job_id = job_id))
        worker_resources := updateWorker st.worker_resources best.worker_id
          (allocateFromWorker req)
        job_allocations := setAllocation st.job_allocations alloc }

/-- Resource restoration of `release_resources` (resource_allocator.py lines
181-190): each amount is added back and clamped at the maximum — except
`available_network`, which receives `allocation.allocated_disk` (line 184,
"Using disk as placeholder"). -/
def releaseToWorker (a : ResourceAllocation) (w : WorkerResource) : WorkerResource :=
  { w with
    available_cpu := min (w.available_cpu + a.allocated_cpu) w.max_cpu
    available_memory := min (w.available_memory + a.allocated_memory) w.max_memory
    available_disk := min (w.available_disk + a.allocated_disk) w.max_disk
    available_network := min (w.available_network + a.allocated_disk) w.max_network }

/-- Body of `release_resources` (resource_allocator.py lines 170-198): a job
with no allocation is a no-op; otherwise the owning worker (when still
registered) gets the amounts back and the allocation is deleted. -/
def releaseResources (st : AllocatorState) (job_id : String) : AllocatorState :=
  match st.job_allocations.find? (fun a => a.job_id = job_id) with
  | none => st
  | some a =>
    { st with
      worker_resources := updateWorker st.worker_resources a.worker_id (releaseToWorker a)
      job_allocations := st.job_allocations.filter (fun x => !(x.job_id = job_id)) }

/-- One observable operation on the allocator. -/
inductive AllocOp where
  | register (worker_id : String) (cpu memory disk network : Option ℚ)
  | queue (job_id : String) (priority_score : ℤ) (processing_types : List String)
  | allocate (job_id : String)
  | release (job_id : String)
  deriving DecidableEq, Repr

def applyAllocOp (st : AllocatorState) : AllocOp → AllocatorState
  | .register wid c m d n => registerWorker st wid c m d n
  | .queue jid score pts => queueJob st jid score pts
  | .allocate jid => allocateResources st jid
  | .release jid => releaseResources st jid

def runAllocOps (ops : List AllocOp) : AllocatorState :=
  ops.foldl applyAllocOp initAllocatorState

/-- Registration inputs are nonnegative (capacities are amounts of CPU,
memory, disk and bandwidth; the source's defaults are positive). -/
def AllocOp.regNonneg : AllocOp → Prop
  | .register _ c m d n => 0 ≤ c.getD 2 ∧ 0 ≤ m.getD 4096 ∧ 0 ≤ d.getD 10000 ∧
      0 ≤ n.getD 100
  | _ => True

instance : DecidablePred AllocOp.regNonneg := by
  intro op
  cases op <;> simp [AllocOp.regNonneg] <;> infer_instance

/-- The interval invariant of claim C2 for one worker, on the CPU, memory
and disk axes. -/
def WorkerWithinBounds (w : WorkerResource) : Prop :=
  0 ≤ w.available_cpu ∧ w.available_cpu ≤ w.max_cpu ∧
    0 ≤ w.available_memory ∧ w.available_memory ≤ w.max_memory ∧
    0 ≤ w.available_disk ∧ w.available_disk ≤ w.max_disk

instance (w : WorkerResource) : Decidable (WorkerWithinBounds w) := by
  unfold WorkerWithinBounds; infer_instance

/-- Combined induction invariant for the allocator: every worker within
bounds, every stored allocation nonnegative, and worker ids unique (as they
are in the Python dict keyed by id). -/
def AllocInv (st : AllocatorState) : Prop :=
  (∀ w ∈ st.worker_resources, WorkerWithinBounds w) ∧
    (∀ a ∈ st.job_allocations,
      0 ≤ a.allocated_cpu ∧ 0 ≤ a.allocated_memory ∧ 0 ≤ a.allocated_disk) ∧
    (st.worker_resources.map (·.worker_id)).Nodup

/-- Operation sequence exercising a full allocate/release round trip with a
double release and a release of an unknown job id. -/
def c2WitnessOps : List AllocOp :=
  [.register "w1" none none none none,
   .queue "j1" 50 ["image_resize"],
   .allocate "j1",
   .release "j1",
   .release "j1",
   .release "ghost"]

/-- Scenario for the network-restoration mismatch: one worker, a
video-thumbnail job A (network 50, disk 500) and an image-resize job B
(network 10, disk 100), with A allocated. -/
def netDemoBase : List AllocOp :=
  [.register "w" (some 10) (some 10000) (some 10000) (some 100),
   .queue "A" 50 ["video_thumbnail"],
   .queue "B" 40 ["image_resize"],
   .allocate "A"]

/-- The available network bandwidth of the worker with the given id. -/
def workerNetworkOf (st : AllocatorState) (wid : String) : Option ℚ :=
  (st.worker_resources.find? (fun w => w.worker_id = wid)).map (·.available_network)

/-- A stored allocation of job B as `allocate_resources` records it for an
image-resize job: cpu 1, memory 512, disk 100 — and no network field. -/
def netDemoAlloc : ResourceAllocation := ⟨"B", "w", 1, 512, 100, 30, 40⟩

/-- The allocator state after `netDemoBase ++ [allocate "B"]`, written out. -/
def netDemoState : AllocatorState :=
  { job_queue := []
    worker_resources := [⟨"w", 7, 7440, 9400, 40, 10, 10000, 10000, 100⟩]
    job_allocations := [netDemoAlloc] }

/-! ## The priority heap of `queue_job` (resource_allocator.py lines 89-111)

`queue_job` pushes `(-priority_score, queue_entry)` onto a `heapq` list,
where `queue_entry` is a Python dict.  CPython's `heappush` compares items
with `<`; tuples compare lexicographically, so two entries with equal
scores fall through to comparing the dicts, and dicts support no ordering:
the comparison raises `TypeError`.  The embedding keeps the entry as an
opaque sequence number (dicts are compared only when the scores tie, and
then the comparison always raises) and follows CPython's
`heappush`/`_siftdown` exactly. -/

/-- A heap item `(-priority_score, queue_entry)`: the negated score and the
push sequence number standing for the dict. -/
abbrev PyHeapItem := ℤ × ℕ

instance exceptDecEq {ε α : Type} [DecidableEq ε] [DecidableEq α] :
    DecidableEq (Except ε α) := fun a b =>
  match a, b with
  | .error x, .error y =>
    if h : x = y then .isTrue (by rw [h]) else .isFalse (fun hc => h (Except.error.inj hc))
  | .error _, .ok _ => .isFalse (fun hc => Except.noConfusion hc)
  | .ok _, .error _ => .isFalse (fun hc => Except.noConfusion hc)
  | .ok x, .ok y =>
    if h : x = y then .isTrue (by rw [h]) else .isFalse (fun hc => h (Except.ok.inj hc))

/-- Python `<` on two heap items: lexicographic on the tuple, and a
`TypeError` (modelled as `Except.error`) when the first components tie and
the dicts in the second components would have to be compared. -/
def heapItemLt (a b : PyHeapItem) : Except Unit Bool :=
  if a.1 < b.1 then .ok true
  else if b.1 < a.1 then .ok false
  else .error ()

/-- Loop of CPython `heapq._siftdown(heap, 0, pos)`: walk from `pos`
towards the root, moving parents down while `newitem` compares below them.
The structural `fuel` argument bounds the iterations; every step moves to
the parent slot `(pos - 1) / 2 ≤ pos - 1`, so a fuel of the starting
position is enough and the fuel-exhaustion branch is never taken. -/
def siftdownGo (newitem : PyHeapItem) :
    (fuel : ℕ) → List PyHeapItem → (pos : ℕ) → Except Unit (List PyHeapItem)
  | _, heap, 0 => .ok (heap.set 0 newitem)
  | 0, heap, pos => .ok (heap.set pos newitem)
  | fuel + 1, heap, pos =>
    let parentpos := (pos - 1) / 2
    let parent := heap.getD parentpos (0, 0)
    match heapItemLt newitem parent with
    | .error u => .error u
    | .ok true => siftdownGo newitem fuel (heap.set pos parent) parentpos
    | .ok false => .ok (heap.set pos newitem)

/-- CPython `heapq._siftdown(heap, 0, pos)`. -/
def siftdown (heap : List PyHeapItem) (newitem : PyHeapItem) (pos : ℕ) :
    Except Unit (List PyHeapItem) :=
  siftdownGo newitem pos heap pos

/-- CPython `heapq.heappush`: append, then sift down from the last slot. -/
def heappush (heap : List PyHeapItem) (item : PyHeapItem) :
    Except Unit (List PyHeapItem) :=
  siftdown (heap ++ [item]) item heap.length

/-- Effect of a sequence of `queue_job` calls on the heap, given the
computed priority scores in submission order: each call pushes
`(-priority_score, entry)` (resource_allocator.py line 105); the sequence
number doubles as the submission index. -/
def queueJobsHeap (scores : List ℤ) : Except Unit (List PyHeapItem) :=
  (scores.enum.map fun p => (-p.2, p.1)).foldlM heappush []

/-! ## Supporting lemmas -/

/-- A terminal status is not `pending`. -/
theorem isTerminal_ne_pending {s : JobStatus} (h : s.isTerminal = true) :
    ¬s = .pending := by
  cases s <;> simp_all [JobStatus.isTerminal]

/-- Neither `cancel_job` nor `process_job_async` moves a job out of a
terminal status. -/
theorem applyJobOp_terminal {s : JobStatus} (op : JobOp) (h : s.isTerminal = true)
    (hop : op ≠ .fail) : applyJobOp s op = s := by
  cases op with
  | cancel => simp [applyJobOp, cancelJobStatus, h]
  | process o =>
      simp [applyJobOp, processJobAsyncTrace, isTerminal_ne_pending h]
  | fail => exact absurd rfl hop

/-- After the clamp `min d1 maxd`, adding at most ten percent of jitter and
flooring at 0.1 keeps the delay below `max (11/10 * maxd) (1/10)`. -/
theorem clampedJitter_le (d1 maxd u : ℚ) (hu1 : -1 ≤ u) (hu2 : u ≤ 1) (jit : Bool) :
    max (if jit then min d1 maxd + min d1 maxd * (1 / 10) * u else min d1 maxd) (1 / 10)
      ≤ max (11 / 10 * maxd) (1 / 10) := by
  have hxm : min d1 maxd ≤ maxd := min_le_right _ _
  set x := min d1 maxd
  have hA : x ≤ max (11 / 10 * maxd) (1 / 10) := by
    rcases le_or_lt x 0 with h0 | h0
    · exact le_trans (by linarith) (le_max_right _ _)
    · have hmaxd : 0 < maxd := lt_of_lt_of_le h0 hxm
      exact le_trans (by linarith) (le_max_left _ _)
  have hB : x + x * (1 / 10) * u ≤ max (11 / 10 * maxd) (1 / 10) := by
    rcases le_or_lt x 0 with h0 | h0
    · refine le_trans ?_ (le_max_right _ _)
      nlinarith [mul_nonneg (neg_nonneg.mpr h0) (by linarith : (0:ℚ) ≤ 1 + u)]
    · have hmaxd : 0 < maxd := lt_of_lt_of_le h0 hxm
      refine le_trans ?_ (le_max_left _ _)
      nlinarith [mul_nonneg (le_of_lt h0) (by linarith : (0:ℚ) ≤ 1 - u)]
  have key : (if jit then x + x * (1 / 10) * u else x) ≤ max (11 / 10 * maxd) (1 / 10) := by
    cases jit
    · simpa using hA
    · simpa using hB
  exact max_le key (le_max_right _ _)

theorem processingRequirements_nonneg (t : String) (r : ResourceRequirement)
    (h : processingRequirements t = some r) :
    0 ≤ r.cpu_cores ∧ 0 ≤ r.memory_mb ∧ 0 ≤ r.disk_mb := by
  unfold processingRequirements at h
  split_ifs at h <;> simp_all <;> norm_num [← h]

theorem calculateTotalRequirements_nonneg (pts : List String) :
    0 ≤ (calculateTotalRequirements pts).cpu_cores ∧
      0 ≤ (calculateTotalRequirements pts).memory_mb ∧
      0 ≤ (calculateTotalRequirements pts).disk_mb := by
  unfold calculateTotalRequirements
  suffices h : ∀ (l : List String) (acc : ResourceRequirement),
      0 ≤ acc.cpu_cores → 0 ≤ acc.memory_mb → 0 ≤ acc.disk_mb →
      0 ≤ (l.foldl
          (fun acc t =>
            match processingRequirements t with
            | some req =>
                { cpu_cores := acc.cpu_cores + req.cpu_cores
                  memory_mb := acc.memory_mb + req.memory_mb
                  disk_mb := acc.disk_mb + req.disk_mb
                  network_mbps := acc.network_mbps + req.network_mbps
                  estimated_duration_seconds :=
                    max acc.estimated_duration_seconds req.estimated_duration_seconds }
            | none => acc) acc).cpu_cores ∧
        0 ≤ (l.foldl _ acc).memory_mb ∧ 0 ≤ (l.foldl _ acc).disk_mb by
    exact h pts ⟨0, 0, 0, 0, 0⟩ le_rfl le_rfl le_rfl
  intro l
  induction l with
  | nil => intro acc h1 h2 h3; exact ⟨h1, h2, h3⟩
  | cons t rest ih =>
      intro acc h1 h2 h3
      simp only [List.foldl_cons]
      cases hreq : processingRequirements t with
      | none => simpa [hreq] using ih acc h1 h2 h3
      | some req =>
          have hr := processingRequirements_nonneg t req hreq
          simp only [hreq]
          exact ih _ (by dsimp; linarith [hr.1]) (by dsimp; linarith [hr.2.1])
            (by dsimp; linarith [hr.2.2])

theorem setWorker_mem {ws : List WorkerResource} {w x : WorkerResource}
    (h : x ∈ setWorker ws w) : x = w ∨ x ∈ ws := by
  induction ws with
  | nil => simpa [setWorker] using h
  | cons y ys ih =>
      unfold setWorker at h
      by_cases hy : y.worker_id = w.worker_id
      · rw [if_pos hy] at h
        rcases List.mem_cons.mp h with h1 | h1
        · exact Or.inl h1
        · exact Or.inr (List.mem_cons_of_mem y h1)
      · rw [if_neg hy] at h
        rcases List.mem_cons.mp h with h1 | h1
        · exact Or.inr (h1 ▸ List.mem_cons_self y ys)
        · rcases ih h1 with h2 | h2
          · exact Or.inl h2
          · exact Or.inr (List.mem_cons_of_mem y h2)

theorem setAllocation_mem {l : List ResourceAllocation} {a x : ResourceAllocation}
    (h : x ∈ setAllocation l a) : x = a ∨ x ∈ l := by
  induction l with
  | nil => simpa [setAllocation] using h
  | cons y ys ih =>
      unfold setAllocation at h
      by_cases hy : y.job_id = a.job_id
      · rw [if_pos hy] at h
        rcases List.mem_cons.mp h with h1 | h1
        · exact Or.inl h1
        · exact Or.inr (List.mem_cons_of_mem y h1)
      · rw [if_neg hy] at h
        rcases List.mem_cons.mp h with h1 | h1
        · exact Or.inr (h1 ▸ List.mem_cons_self y ys)
        · rcases ih h1 with h2 | h2
          · exact Or.inl h2
          · exact Or.inr (List.mem_cons_of_mem y h2)

theorem setWorker_nodup {ws : List WorkerResource} {w : WorkerResource}
    (h : (ws.map (·.worker_id)).Nodup) :
    ((setWorker ws w).map (·.worker_id)).Nodup := by
  induction ws with
  | nil => simp [setWorker]
  | cons y ys ih =>
      simp only [List.map_cons, List.nodup_cons] at h
      unfold setWorker
      by_cases hy : y.worker_id = w.worker_id
      · rw [if_pos hy]
        simp only [List.map_cons, List.nodup_cons]
        exact ⟨hy ▸ h.1, h.2⟩
      · rw [if_neg hy]
        simp only [List.map_cons, List.nodup_cons]
        refine ⟨?_, ih h.2⟩
        intro hmem
        rcases List.mem_map.mp hmem with ⟨x, hx, hxid⟩
        rcases setWorker_mem hx with h1 | h1
        · exact hy (hxid ▸ congrArg (·.worker_id) h1 ▸ rfl)
        · exact h.1 (List.mem_map.mpr ⟨x, h1, hxid⟩)

theorem updateWorker_map_id (ws : List WorkerResource) (wid : String)
    (f : WorkerResource → WorkerResource) (hf : ∀ w, (f w).worker_id = w.worker_id) :
    (updateWorker ws wid f).map (·.worker_id) = ws.map (·.worker_id) := by
  induction ws with
  | nil => rfl
  | cons y ys ih =>
      unfold updateWorker at ih ⊢
      by_cases hy : y.worker_id = wid
      · simp [hy, hf y, ih]
      · simp [hy, ih]

theorem pickBestWorker_mem (req : ResourceRequirement) (h : WorkerResource)
    (t : List WorkerResource) : pickBestWorker req h t ∈ h :: t := by
  unfold pickBestWorker
  suffices key : ∀ (l : List WorkerResource) (s : WorkerResource),
      (l.foldl (fun best w =>
        if workerFitScore w req < workerFitScore best req then w else best) s) = s ∨
      (l.foldl (fun best w =>
        if workerFitScore w req < workerFitScore best req then w else best) s) ∈ l by
    rcases key t h with h1 | h1
    · rw [h1]; exact List.mem_cons_self h t
    · exact List.mem_cons_of_mem h h1
  intro l
  induction l with
  | nil => intro s; exact Or.inl rfl
  | cons x xs ih =>
      intro s
      simp only [List.foldl_cons]
      rcases ih (if workerFitScore x req < workerFitScore s req then x else s) with h1 | h1
      · rw [h1]
        by_cases hx : workerFitScore x req < workerFitScore s req
        · rw [if_pos hx]; exact Or.inr (List.mem_cons_self x xs)
        · rw [if_neg hx]; exact Or.inl rfl
      · exact Or.inr (List.mem_cons_of_mem x h1)

theorem findBestWorker_spec {ws : List WorkerResource} {req : ResourceRequirement}
    {w : WorkerResource} (h : findBestWorker ws req = some w) :
    w ∈ ws ∧ workerSuitable w req = true := by
  unfold findBestWorker at h
  rcases hf : ws.filter (fun w => workerSuitable w req) with _ | ⟨h1, t1⟩
  · rw [hf] at h; cases h
  · rw [hf] at h
    have hw : w = pickBestWorker req h1 t1 := by
      simpa using h.symm
    have hmem : w ∈ ws.filter (fun w => workerSuitable w req) := by
      rw [hf, hw]
      exact pickBestWorker_mem req h1 t1
    have := List.mem_filter.mp hmem
    exact ⟨this.1, by simpa using this.2⟩

theorem nodup_id_unique {ws : List WorkerResource} {w1 w2 : WorkerResource}
    (hnd : (ws.map (·.worker_id)).Nodup) (h1 : w1 ∈ ws) (h2 : w2 ∈ ws)
    (hid : w1.worker_id = w2.worker_id) : w1 = w2 := by
  induction ws with
  | nil => cases h1
  | cons y ys ih =>
      simp only [List.map_cons, List.nodup_cons] at hnd
      rcases List.mem_cons.mp h1 with ha | ha <;> rcases List.mem_cons.mp h2 with hb | hb
      · exact ha.trans hb.symm
      · exact absurd (List.mem_map.mpr ⟨w2, hb, (ha ▸ hid).symm⟩) hnd.1
      · exact absurd (List.mem_map.mpr ⟨w1, ha, (hb ▸ hid)⟩) hnd.1
      · exact ih hnd.2 ha hb

theorem applyAllocOp_inv {st : AllocatorState} {op : AllocOp}
    (hop : op.regNonneg) (hinv : AllocInv st) : AllocInv (applyAllocOp st op) := by
  obtain ⟨hw, ha, hnd⟩ := hinv
  cases op with
  | register wid c m d n =>
      obtain ⟨hc, hm, hd, hn⟩ := hop
      refine ⟨?_, ha, ?_⟩
      · intro x hx
        rcases setWorker_mem hx with h1 | h1
        · rw [h1]
          exact ⟨hc, le_rfl, hm, le_rfl, hd, le_rfl⟩
        · exact hw x h1
      · exact setWorker_nodup hnd
  | queue jid score pts =>
      exact ⟨hw, ha, hnd⟩
  | allocate jid =>
      show AllocInv (allocateResources st jid)
      unfold allocateResources
      cases hfind : st.job_queue.find? (fun e => e.job_id = jid) with
      | none => exact ⟨hw, ha, hnd⟩
      | some entry =>
          dsimp only
          cases hbest : findBestWorker st.worker_resources
              (calculateTotalRequirements entry.processing_types) with
          | none => exact ⟨hw, ha, hnd⟩
          | some best =>
              show AllocInv
                { job_queue := st.job_queue.filter (fun e => !(e.job_id = jid))
                  worker_resources := updateWorker st.worker_resources best.worker_id
                    (allocateFromWorker (calculateTotalRequirements entry.processing_types))
                  job_allocations := setAllocation st.job_allocations
                    { job_id := jid
                      worker_id := best.worker_id
                      allocated_cpu := (calculateTotalRequirements entry.processing_types).cpu_cores
                      allocated_memory := (calculateTotalRequirements entry.processing_types).memory_mb
                      allocated_disk := (calculateTotalRequirements entry.processing_types).disk_mb
                      estimated_duration :=
                        (calculateTotalRequirements entry.processing_types).estimated_duration_seconds
                      priority_score := |entry.priority_score| } }
              obtain ⟨hbmem, hbsuit⟩ := findBestWorker_spec hbest
              have hreq := calculateTotalRequirements_nonneg entry.processing_types
              have hsuit : (calculateTotalRequirements entry.processing_types).cpu_cores ≤
                    best.available_cpu ∧
                  (calculateTotalRequirements entry.processing_types).memory_mb ≤
                    best.available_memory ∧
                  (calculateTotalRequirements entry.processing_types).disk_mb ≤
                    best.available_disk := by
                have := of_decide_eq_true hbsuit
                exact ⟨this.1, this.2.1, this.2.2.1⟩
              refine ⟨?_, ?_, ?_⟩
              · intro x hx
                simp only [updateWorker, List.mem_map] at hx
                obtain ⟨w0, hw0, hxeq⟩ := hx
                by_cases hid : w0.worker_id = best.worker_id
                · have hw0best : w0 = best := nodup_id_unique hnd hw0 hbmem hid
                  rw [if_pos hid] at hxeq
                  subst hxeq
                  subst hw0best
                  obtain ⟨b1, b2, b3, b4, b5, b6⟩ := hw w0 hw0
                  exact ⟨by dsimp [allocateFromWorker]; linarith [hsuit.1],
                    by dsimp [allocateFromWorker]; linarith [hreq.1],
                    by dsimp [allocateFromWorker]; linarith [hsuit.2.1],
                    by dsimp [allocateFromWorker]; linarith [hreq.2.1],
                    by dsimp [allocateFromWorker]; linarith [hsuit.2.2],
                    by dsimp [allocateFromWorker]; linarith [hreq.2.2]⟩
                · rw [if_neg hid] at hxeq
                  subst hxeq
                  exact hw w0 hw0
              · intro x hx
                rcases setAllocation_mem hx with h1 | h1
                · rw [h1]
                  exact ⟨hreq.1, hreq.2.1, hreq.2.2⟩
                · exact ha x h1
              · dsimp only
                rw [updateWorker_map_id st.worker_resources best.worker_id
                  (allocateFromWorker (calculateTotalRequirements entry.processing_types))
                  (fun w => rfl)]
                exact hnd
  | release jid =>
      show AllocInv (releaseResources st jid)
      unfold releaseResources
      cases hfind : st.job_allocations.find? (fun a => a.job_id = jid) with
      | none => exact ⟨hw, ha, hnd⟩
      | some a =>
          show AllocInv
            { st with
              worker_resources := updateWorker st.worker_resources a.worker_id
                (releaseToWorker a)
              job_allocations := st.job_allocations.filter (fun x => !(x.job_id = jid)) }
          have hamem : a ∈ st.job_allocations := List.mem_of_find?_eq_some hfind
          have han := ha a hamem
          refine ⟨?_, ?_, ?_⟩
          · intro x hx
            simp only [updateWorker, List.mem_map] at hx
            obtain ⟨w0, hw0, hxeq⟩ := hx
            by_cases hid : w0.worker_id = a.worker_id
            · rw [if_pos hid] at hxeq
              subst hxeq
              obtain ⟨b1, b2, b3, b4, b5, b6⟩ := hw w0 hw0
              refine ⟨le_min (by linarith [han.1]) (by linarith), min_le_right _ _,
                le_min (by linarith [han.2.1]) (by linarith), min_le_right _ _,
                le_min (by linarith [han.2.2]) (by linarith), min_le_right _ _⟩
            · rw [if_neg hid] at hxeq
              subst hxeq
              exact hw w0 hw0
          · intro x hx
            exact ha x (List.mem_of_mem_filter hx)
          · dsimp only
            rw [updateWorker_map_id st.worker_resources a.worker_id (releaseToWorker a)
              (fun w => rfl)]
            exact hnd

theorem runAllocOps_inv (ops : List AllocOp) (h : ∀ op ∈ ops, op.regNonneg) :
    AllocInv (runAllocOps ops) := by
  unfold runAllocOps
  suffices key : ∀ (l : List AllocOp) (st : AllocatorState), AllocInv st →
      (∀ op ∈ l, op.regNonneg) → AllocInv (l.foldl applyAllocOp st) by
    refine key ops initAllocatorState ⟨?_, ?_, ?_⟩ h <;> simp [initAllocatorState]
  intro l
  induction l with
  | nil => intro st hst _; exact hst
  | cons op rest ih =>
      intro st hst hl
      simp only [List.foldl_cons]
      exact ih _ (applyAllocOp_inv (hl op (List.mem_cons_self op rest)) hst)
        (fun o ho => hl o (List.mem_cons_of_mem op ho))

/-! ## Claim theorems -/

/-- Claim C1, counterexample: the claim says that once a job is in a
terminal state no later operation changes its status, but `_fail_job` run
on a `completed` job rewrites the status to `failed`. -/
theorem C1_counterexample :
    JobStatus.isTerminal .completed = true ∧
      runJobOps .completed [.fail] = .failed ∧ JobStatus.failed ≠ .completed := by
  refine ⟨rfl, rfl, by decide⟩

/-- Claim C1, amended: `create_job` starts every job `pending`;
`cancel_job` moves a non-terminal job to `cancelled` and leaves terminal
jobs unchanged; `process_job_async` writes from `pending` only — its first
write is `running` and its last write is a terminal status — and `running`
is entered only from `pending`; but `_fail_job` writes `failed` from any
state, terminal states included, so terminality is preserved only by
operation sequences that avoid `_fail_job`. -/
theorem C1_amended :
    createJobStatus = .pending ∧
    (∀ s : JobStatus, s.isTerminal = false → cancelJobStatus s = .cancelled) ∧
    (∀ s : JobStatus, s.isTerminal = true → cancelJobStatus s = s) ∧
    (∀ (s : JobStatus) (o : ProcessOutcome), .running ∈ processJobAsyncTrace s o →
      s = .pending) ∧
    (∀ o : ProcessOutcome, (processJobAsyncTrace .pending o).head? = some .running ∧
      (applyJobOp .pending (.process o)).isTerminal = true) ∧
    (∀ (s : JobStatus) (o : ProcessOutcome), s.isTerminal = true →
      processJobAsyncTrace s o = []) ∧
    (∀ s : JobStatus, failJobStatus s = .failed) ∧
    (∀ (s : JobStatus) (ops : List JobOp), s.isTerminal = true →
      (∀ op ∈ ops, op ≠ .fail) → runJobOps s ops = s) := by
  refine ⟨rfl, ?_, ?_, ?_, ?_, ?_, ?_, ?_⟩
  · intro s h; simp [cancelJobStatus, h]
  · intro s h; simp [cancelJobStatus, h]
  · intro s o h
    by_contra hs
    simp [processJobAsyncTrace, hs] at h
  · intro o; cases o <;> exact ⟨rfl, rfl⟩
  · intro s o h; simp [processJobAsyncTrace, isTerminal_ne_pending h]
  · intro s; rfl
  · intro s ops h hops
    induction ops with
    | nil => rfl
    | cons op rest ih =>
        have h1 : applyJobOp s op = s :=
          applyJobOp_terminal op h (hops op (List.mem_cons_self op rest))
        have h2 : ∀ o ∈ rest, o ≠ JobOp.fail := fun o ho =>
          hops o (List.mem_cons_of_mem op ho)
        calc runJobOps s (op :: rest) = runJobOps (applyJobOp s op) rest := rfl
          _ = runJobOps s rest := by rw [h1]
          _ = s := ih h2

/-- Witness for C1: a pending job is cancelled by `cancel_job`, and a
completed job survives a cancel and a reprocessing attempt untouched. -/
theorem C1_amended_witness :
    JobStatus.isTerminal .pending = false ∧ cancelJobStatus .pending = .cancelled ∧
      JobStatus.isTerminal .completed = true ∧
      runJobOps .completed [.cancel, .process .procSuccess] = .completed :=
  ⟨by decide, C1_amended.2.1 .pending (by decide), by decide,
    C1_amended.2.2.2.2.2.2.2 .completed [.cancel, .process .procSuccess]
      (by decide) (by decide)⟩

/-- Claim C3, counterexample: the claim says the computed delay never
exceeds `max_delay_seconds` for every jitter outcome, but jitter is added
after the clamp: at the maximum delay of 300s with the jitter draw at its
upper end, the returned delay is 330s. -/
theorem C3_counterexample :
    calculateDelay 1
        { max_attempts := 3, strategy := .exponentialBackoff, base_delay_seconds := 300,
          max_delay_seconds := 300, backoff_multiplier := 2, jitter := true,
          retry_on_exceptions := [] } .transient 1 = 330 ∧
      ¬((330 : ℚ) ≤ 300) := by
  constructor
  · unfold calculateDelay
    simp only [eq_false (by decide : ¬(RetryStrategy.exponentialBackoff = RetryStrategy.immediate)),
      eq_false (by decide : ¬((2 : ℚ) = 0)),
      eq_false (by decide : ¬(FailureType.transient = FailureType.rateLimit)),
      eq_false (by decide : ¬(FailureType.transient = FailureType.timeout)),
      if_false, and_false, false_and]
    norm_num
  · norm_num

/-- Claim C3, amended: under the exponential strategy (with a nonzero
multiplier, since a zero multiplier at attempt 0 raises in Python and falls
back to the unclamped base delay), the delay is bounded by
`max (1.1 * max_delay_seconds) 0.1` for every attempt count, failure type
and jitter outcome: the post-clamp jitter can overshoot `max_delay_seconds`
by up to ten percent, and the 0.1s floor applies regardless. -/
theorem C3_amended (attempt_count : ℕ) (config : RetryConfig) (ftype : FailureType) (u : ℚ)
    (hstrat : config.strategy = .exponentialBackoff)
    (hm : config.backoff_multiplier ≠ 0)
    (hu1 : -1 ≤ u) (hu2 : u ≤ 1) :
    calculateDelay attempt_count config ftype u ≤
      max (11 / 10 * config.max_delay_seconds) (1 / 10) := by
  unfold calculateDelay
  have h1 : ¬(config.strategy = RetryStrategy.immediate) := by rw [hstrat]; decide
  have h2 : ¬(config.strategy = RetryStrategy.exponentialBackoff ∧
      config.backoff_multiplier = 0 ∧ attempt_count = 0) := fun hc => hm hc.2.1
  rw [if_neg h1, if_neg h2]
  exact clampedJitter_le _ _ u hu1 hu2 config.jitter

/-- Witness for C3: the default config at attempt 2 with the jitter draw at
its upper end stays within the amended bound. -/
theorem C3_amended_witness :
    defaultRetryConfig.strategy = .exponentialBackoff ∧
      defaultRetryConfig.backoff_multiplier ≠ 0 ∧ (-1 : ℚ) ≤ 1 ∧ (1 : ℚ) ≤ 1 ∧
      calculateDelay 2 defaultRetryConfig .transient 1 ≤
        max (11 / 10 * defaultRetryConfig.max_delay_seconds) (1 / 10) :=
  ⟨rfl, by decide, by decide, by decide,
    C3_amended 2 defaultRetryConfig .transient 1 rfl (by decide) (by decide) (by decide)⟩

/-- Claim C4: the spec's scenario queues jobs with priority scores
50, 10, 90, 10 and expects pops in score order with FIFO ties.  The code
pushes `(-score, dict)` tuples onto a `heapq`; pushing the fourth job ties
on the score, Python compares the two dict payloads, and the push raises
`TypeError` — the scenario cannot even be queued.  The first three pushes
(no ties) succeed. -/
theorem C4_heap_tie_raises :
    queueJobsHeap [50, 10, 90, 10] = .error () ∧
      queueJobsHeap [50, 10, 90] = .ok [(-90, 2), (-10, 1), (-50, 0)] := by
  constructor <;> decide

/-- Claim C5, counterexample: the claim says requests with both
`pipeline_id` and `custom_pipeline` set are rejected and (implicitly) that
requests with only `custom_pipeline` are accepted; the code accepts the
former and rejects the latter, because the pydantic v1 validator attached
to `pipeline_id` runs before `custom_pipeline` has been parsed into
`values`. -/
theorem C5_counterexample :
    jobRequestValidates (some "pipeline-1") true = true ∧
      jobRequestValidates none true = false := by
  constructor <;> decide

/-- Claim C5, amended: `create_job` accepts a request if and only if
`pipeline_id` is set (to a non-empty string) — a request with neither field
is rejected, but so is a request with only `custom_pipeline`, and a request
with both fields set is accepted. -/
theorem C5_amended (pipeline_id : Option String) (hasCustom : Bool) :
    jobRequestValidates pipeline_id hasCustom = pyTruthyStr pipeline_id := by
  unfold jobRequestValidates validatePipeline
  cases h : pyTruthyStr pipeline_id <;> simp [h]

/-- Claim C6: `add_job` with `retry_count ≥ 3` always classifies the entry
as `maxRetriesExceeded`, whatever the error message contains. -/
theorem C6_max_retries_overrides (job_id : String) (e : PyError) (retry_count : ℤ)
    (h : 3 ≤ retry_count) :
    (addJobEntry job_id e retry_count).failure_reason = .maxRetriesExceeded := by
  have h3 : retry_count ≥ 3 := h
  simp [addJobEntry, classifyFailureReason, h3]

/-- Witness for C6: `retry_count = 5` with a timeout-flavoured message
still yields `maxRetriesExceeded`. -/
theorem C6_witness :
    (3 : ℤ) ≤ 5 ∧
      (addJobEntry "job-1"
          ⟨"operation timeout: deadline exceeded", "TimeoutError", false, false, true⟩
          5).failure_reason = .maxRetriesExceeded :=
  ⟨by decide, C6_max_retries_overrides "job-1"
    ⟨"operation timeout: deadline exceeded", "TimeoutError", false, false, true⟩ 5
    (by decide)⟩

/-- Claim C9: with `queue_size = 60`, `current_workers = 5` and
`max_workers = 20`, the scaling decision is `scale_up` to 10 workers with
the high-queue-load reason, for every load score, load, capacity, threshold
pair and idle count. -/
theorem C9_scale_up_queue60 (minw idle : ℤ) (sut sdt : ℚ)
    (load_score current_load total_capacity : ℚ) :
    determineScalingAction ⟨5, minw, 20, sut, sdt, idle⟩ load_score 60
        current_load total_capacity =
      .ok ("scale_up", 10, "High queue load - adding 5 workers") := by
  unfold determineScalingAction scaleUpCondition
  by_cases h : load_score > sut
  · rw [if_pos h]; norm_num
  · rw [if_neg h]; norm_num

/-- Claim C7, counterexample: the claim says every error message containing
"not found" is classified permanent with no retry, but the message
"resource not found" matches the earlier "resource" pattern first, is
classified transient, and is retried on the first attempt when the error
type is retryable. -/
theorem C7_counterexample :
    strContains (lowerString "resource not found") "not found" = true ∧
      classifyFailure ⟨"resource not found", "ResourceExhausted", false, false, false⟩ =
        .transient ∧
      (shouldRetry 0 ⟨"resource not found", "ResourceExhausted", false, false, false⟩
          defaultRetryConfig 0).1 = true := by
  refine ⟨by decide, by decide, by decide⟩

/-- Claim C7, amended: an error whose message contains "not found" is
classified permanent — and `should_retry` returns `(false, 0)` on the very
first attempt for every config with `max_attempts ≥ 1` — provided no
earlier pattern of the classifier ("connection", "timeout", "network",
"temporary", "resource") occurs in the lowercased message or type name. -/
theorem C7_amended (e : PyError) (config : RetryConfig) (u : ℚ)
    (hnf : strContains (lowerString e.message) "not found" = true)
    (hnone : ∀ p ∈ ["connection", "timeout", "network", "temporary", "resource"],
      strContains (lowerString e.message) p = false ∧
        strContains (lowerString e.typeName) p = false)
    (hmax : 1 ≤ config.max_attempts) :
    classifyFailure e = .permanent ∧ shouldRetry 0 e config u = (false, 0) := by
  have hc := hnone "connection" (by simp)
  have ht := hnone "timeout" (by simp)
  have hn := hnone "network" (by simp)
  have htm := hnone "temporary" (by simp)
  have hr := hnone "resource" (by simp)
  have hclass : classifyFailure e = .permanent := by
    unfold classifyFailure failurePatterns
    by_cases hI : (strContains (lowerString e.message) "invalid" ||
        strContains (lowerString e.typeName) "invalid") = true
    · simp [List.find?, hc.1, hc.2, ht.1, ht.2, hn.1, hn.2, htm.1, htm.2, hr.1, hr.2, hI]
    · have hI2 : (strContains (lowerString e.message) "invalid" ||
          strContains (lowerString e.typeName) "invalid") = false := by
        simpa using hI
      simp [List.find?, hc.1, hc.2, ht.1, ht.2, hn.1, hn.2, htm.1, htm.2, hr.1, hr.2,
        hI2, hnf]
  refine ⟨hclass, ?_⟩
  have hlt : ¬(((0 : ℕ) : ℤ) ≥ config.max_attempts) := by
    push_cast
    omega
  simp [shouldRetry, hclass, hlt]

/-- Witness for C7: a "file not found" error is permanent and not
retried. -/
theorem C7_amended_witness :
    strContains (lowerString "file not found") "not found" = true ∧
      classifyFailure ⟨"file not found", "FileError", false, false, false⟩ = .permanent ∧
      shouldRetry 0 ⟨"file not found", "FileError", false, false, false⟩
        defaultRetryConfig 0 = (false, 0) :=
  ⟨by decide,
    (C7_amended ⟨"file not found", "FileError", false, false, false⟩ defaultRetryConfig 0
      (by decide) (by decide) (by decide)).1,
    (C7_amended ⟨"file not found", "FileError", false, false, false⟩ defaultRetryConfig 0
      (by decide) (by decide) (by decide)).2⟩

/-- Claim C8, counterexample: the claim says the final progress percentage
equals `100 * completed_files / total_files`, but `_complete_batch_job`
writes `100.0` unconditionally: a two-file batch with one failure reports
100 percent while `100 * completed / total` is 50. -/
theorem C8_counterexample :
    (completeBatchProgress ["f1", "f2"] ["f1"] ["f2"]).progress_percentage = 100 ∧
      ¬((completeBatchProgress ["f1", "f2"] ["f1"] ["f2"]).progress_percentage =
        100 * ((completeBatchProgress ["f1", "f2"] ["f1"] ["f2"]).completed_files : ℚ) /
          ((completeBatchProgress ["f1", "f2"] ["f1"] ["f2"]).total_files : ℚ)) := by
  constructor
  · rfl
  · norm_num [completeBatchProgress]

/-- Claim C8, amended: the four per-state counters always sum to the number
of files — at initialisation, at every `_update_batch_progress` call, and
at completion provided every file was classified as successful or failed;
during processing the percentage equals `100 * completed / total`, but the
final progress written at completion hard-codes `100.0`, which matches
`100 * completed / total` only when every file succeeded. -/
theorem C8_amended :
    (∀ n : ℕ, (initBatchProgress n).counterSum = n) ∧
    (∀ (n : ℕ) (jobs : List JobStatus), (updateBatchProgress n jobs).counterSum = n) ∧
    (∀ (n : ℕ) (jobs : List JobStatus), n ≠ 0 →
      (updateBatchProgress n jobs).progress_percentage =
        100 * (countStatus jobs .completed : ℚ) / n) ∧
    (∀ fids s f : List String, s.length + f.length = fids.length →
      (completeBatchProgress fids s f).counterSum = fids.length) ∧
    (∀ fids s f : List String, (completeBatchProgress fids s f).progress_percentage = 100) := by
  refine ⟨?_, ?_, ?_, ?_, ?_⟩
  · intro n; simp [initBatchProgress, BatchJobProgress.counterSum]
  · intro n jobs; simp [updateBatchProgress, BatchJobProgress.counterSum]
  · intro n jobs hn
    simp [updateBatchProgress, hn]
    ring
  · intro fids s f h
    simp [completeBatchProgress, BatchJobProgress.counterSum]
    omega
  · intro fids s f; rfl

/-- Witness for C8: a two-file batch with one completed and one running job
mid-flight, and a completed batch with one success and one failure. -/
theorem C8_amended_witness :
    (2 : ℕ) ≠ 0 ∧
      (updateBatchProgress 2 [.completed, .running]).progress_percentage =
        100 * (countStatus [.completed, .running] .completed : ℚ) / ((2 : ℕ) : ℚ) ∧
      (["f1"] : List String).length + (["f2"] : List String).length =
        (["f1", "f2"] : List String).length ∧
      (completeBatchProgress ["f1", "f2"] ["f1"] ["f2"]).counterSum =
        (["f1", "f2"] : List String).length :=
  ⟨by decide,
    C8_amended.2.2.1 2 [.completed, .running] (by decide),
    by decide,
    C8_amended.2.2.2.1 ["f1", "f2"] ["f1"] ["f2"] (by decide)⟩

/-- Claim C2: across any sequence of register / queue / allocate / release
operations (double releases and unknown job ids included), every worker's
available CPU, memory and disk stay within `[0, max]`, provided the
registered capacities are nonnegative. -/
theorem C2_available_within_bounds (ops : List AllocOp)
    (h : ∀ op ∈ ops, op.regNonneg) :
    ∀ w ∈ (runAllocOps ops).worker_resources, WorkerWithinBounds w :=
  (runAllocOps_inv ops h).1

/-- Witness for C2: a register / queue / allocate / release run with a
double release and a release of an unknown job id. -/
theorem C2_witness :
    (∀ op ∈ c2WitnessOps, op.regNonneg) ∧
      ∀ w ∈ (runAllocOps c2WitnessOps).worker_resources, WorkerWithinBounds w :=
  ⟨by decide, C2_available_within_bounds c2WitnessOps (by decide)⟩

/-- In the demo scenario, the worker's available network after allocating A
is 50 (100 minus A's network requirement of 50). -/
theorem netDemo_network_before : workerNetworkOf (runAllocOps netDemoBase) "w" = some 50 := by
  have hv : processingRequirements "video_thumbnail" = some ⟨2, 2048, 500, 50, 120⟩ := rfl
  have hi : processingRequirements "image_resize" = some ⟨1, 512, 100, 10, 30⟩ := rfl
  have hab : ("A" = "B") = False := eq_false (by decide)
  have hba : ("B" = "A") = False := eq_false (by decide)
  norm_num [netDemoBase, workerNetworkOf, runAllocOps, applyAllocOp, registerWorker,
    queueJob, allocateResources, releaseResources, calculateTotalRequirements,
    hv, hi, hab, hba, findBestWorker, workerSuitable, workerFitScore,
    pickBestWorker, setWorker, setAllocation, updateWorker, allocateFromWorker,
    releaseToWorker, initAllocatorState, List.filter, List.find?, List.foldl]

/-- In the demo scenario, after additionally allocating and then releasing
job B (network requirement 10, disk requirement 100), the worker's
available network is 100, not the 50 it held before B was allocated:
release adds back B's disk amount and clamps at the maximum. -/
theorem netDemo_network_after :
    workerNetworkOf (runAllocOps (netDemoBase ++ [.allocate "B", .release "B"])) "w" =
      some 100 := by
  have hv : processingRequirements "video_thumbnail" = some ⟨2, 2048, 500, 50, 120⟩ := rfl
  have hi : processingRequirements "image_resize" = some ⟨1, 512, 100, 10, 30⟩ := rfl
  have hab : ("A" = "B") = False := eq_false (by decide)
  have hba : ("B" = "A") = False := eq_false (by decide)
  norm_num [netDemoBase, workerNetworkOf, runAllocOps, applyAllocOp, registerWorker,
    queueJob, allocateResources, releaseResources, calculateTotalRequirements,
    hv, hi, hab, hba, findBestWorker, workerSuitable, workerFitScore,
    pickBestWorker, setWorker, setAllocation, updateWorker, allocateFromWorker,
    releaseToWorker, initAllocatorState, List.filter, List.find?, List.foldl]

/-- Claim C10: `release_resources` restores CPU, memory and disk by the
recorded allocated amounts but adds the allocation's disk amount to
`available_network` (clamped at the maximum) — no network amount is stored
— so an allocate/release round trip can leave `available_network` away from
its pre-allocation value: in the demo scenario it is 50 before job B is
allocated and 100 after B's round trip. -/
theorem C10_release_network_mismatch :
    (∀ (st : AllocatorState) (job_id : String) (a : ResourceAllocation),
      st.job_allocations.find? (fun x => x.job_id = job_id) = some a →
      (releaseResources st job_id).worker_resources =
        updateWorker st.worker_resources a.worker_id (releaseToWorker a)) ∧
    (∀ (a : ResourceAllocation) (w : WorkerResource),
      (releaseToWorker a w).available_network =
        min (w.available_network + a.allocated_disk) w.max_network ∧
      (releaseToWorker a w).available_disk =
        min (w.available_disk + a.allocated_disk) w.max_disk) ∧
    (workerNetworkOf (runAllocOps netDemoBase) "w" = some 50 ∧
      workerNetworkOf (runAllocOps (netDemoBase ++ [.allocate "B", .release "B"])) "w" =
        some 100) := by
  refine ⟨?_, fun a w => ⟨rfl, rfl⟩, netDemo_network_before, netDemo_network_after⟩
  intro st job_id a hfind
  unfold releaseResources
  rw [hfind]

/-- Witness for C10: the release-effect equation applied to the written-out
mid-scenario state. -/
theorem C10_witness :
    netDemoState.job_allocations.find? (fun x => x.job_id = "B") = some netDemoAlloc ∧
      (releaseResources netDemoState "B").worker_resources =
        updateWorker netDemoState.worker_resources netDemoAlloc.worker_id
          (releaseToWorker netDemoAlloc) :=
  ⟨by decide,
    C10_release_network_mismatch.1 netDemoState "B" netDemoAlloc (by decide)⟩

end FileOps
